import Mathlib

/-!
Verification of the StackChip8 interpreter (src/main.rs).

The machine state of `struct Chip8` is embedded as a Lean structure with
function-valued memory, registers, keypad and screen.  Rust's `u8` / `u16`
values are `Nat` with explicit `% 256` / `% 65536`; Rust's panicking array
indexing is modelled by bound-checked accesses returning `Option`, so a
step that would panic (out-of-range index, unknown opcode, stack underflow)
evaluates to `none`.  The `step` function below is a line-by-line
translation of `Chip8::step`, preserving the exact sequencing of register
writes and the exact wrap / bound checks of the source.
-/

namespace StackChip8

/-- The `CHARACTER_SPRITES` table from the source: sixteen 5-byte glyphs. -/
def CHARACTER_SPRITES : List Nat := [
  0xF0, 0x90, 0x90, 0x90, 0xF0,
  0x20, 0x60, 0x20, 0x20, 0x70,
  0xF0, 0x10, 0xF0, 0x80, 0xF0,
  0xF0, 0x10, 0xF0, 0x10, 0xF0,
  0x90, 0x90, 0xF0, 0x10, 0x10,
  0xF0, 0x80, 0xF0, 0x10, 0xF0,
  0xF0, 0x80, 0xF0, 0x90, 0xF0,
  0xF0, 0x10, 0x20, 0x40, 0x40,
  0xF0, 0x90, 0xF0, 0x90, 0xF0,
  0xF0, 0x90, 0xF0, 0x10, 0xF0,
  0xF0, 0x90, 0xF0, 0x90, 0x90,
  0xF0, 0x80, 0x80, 0x80, 0xF0,
  0xF0, 0x80, 0x80, 0x80, 0xF0,
  0xE0, 0x90, 0x90, 0x90, 0xE0,
  0xF0, 0x80, 0xF0, 0x80, 0xF0,
  0xF0, 0x80, 0xF0, 0x80, 0x80]

/-- Machine state of `struct Chip8` (the emulated-machine fields only;
SDL canvas / audio handles are I/O adapters outside the machine state). -/
structure Chip8 where
  mem : Nat → Nat
  v : Nat → Nat
  i : Nat
  pc : Nat
  stack : List Nat
  delay_timer : Nat
  sound_timer : Nat
  keys_pressed : Nat → Bool
  screen : Nat → Nat → Bool

/-- Pointwise update of a `Nat`-valued store. -/
def upd (f : Nat → Nat) (k x : Nat) : Nat → Nat :=
  fun a => if a = k then x else f a

/-- Pointwise update of the 32x64 screen. -/
def updS (f : Nat → Nat → Bool) (ky kx : Nat) (b : Bool) : Nat → Nat → Bool :=
  fun y2 x2 => if y2 = ky ∧ x2 = kx then b else f y2 x2

/-- Pointwise update of the keypad. -/
def updK (f : Nat → Bool) (k : Nat) (b : Bool) : Nat → Bool :=
  fun a => if a = k then b else f a

/-- Bound-checked read of `mem[a]` (array of 4096 `u8`): the value is a
byte, panic out of range. -/
def memRead (s : Chip8) (a : Nat) : Option Nat :=
  if a < 4096 then some (s.mem a % 256) else none

/-- Read of register `v[x]` as a byte. -/
def readV (s : Chip8) (x : Nat) : Nat :=
  s.v x % 256

/-- Write of register `v[x]` (stores a byte, as the `u8` type truncates). -/
def setV (s : Chip8) (x val : Nat) : Chip8 :=
  { s with v := upd s.v x (val % 256) }

/-- Memory right after `Chip8::load`: glyphs at 0x000-0x04F, the program
image at 0x200 onward, zero elsewhere. -/
def loadMem (prog : List Nat) : Nat → Nat :=
  fun a =>
    if a < 80 then CHARACTER_SPRITES.getD a 0
    else if 512 ≤ a ∧ a < 512 + prog.length then prog.getD (a - 512) 0
    else 0

/-- The machine state `Chip8::load` constructs for a program image. -/
def load (prog : List Nat) : Chip8 :=
  { mem := loadMem prog
    v := fun _ => 0
    i := 0
    pc := 0x200
    stack := []
    delay_timer := 0
    sound_timer := 0
    keys_pressed := fun _ => false
    screen := fun _ _ => false }

/-- Instruction fetch: `(mem[pc] << 8) | mem[pc+1]`, panicking (`none`)
when `pc` or `pc+1` is outside memory. -/
def fetchOp (s : Chip8) : Option Nat :=
  match memRead s s.pc with
  | none => none
  | some hi =>
    match memRead s (s.pc + 1) with
    | none => none
    | some lo => some (hi * 256 + lo)

/-- Field `x` of an instruction word. -/
def opX (op : Nat) : Nat := op / 256 % 16

/-- Field `y` of an instruction word. -/
def opY (op : Nat) : Nat := op / 16 % 16

/-- Field `nnn` of an instruction word. -/
def opNNN (op : Nat) : Nat := op % 4096

/-- Field `nn` of an instruction word. -/
def opNN (op : Nat) : Nat := op % 256

/-- Field `n` of an instruction word. -/
def opN (op : Nat) : Nat := op % 16

/-- One screen XOR in the draw loop: `screen[wy][wx]` is toggled and the
old pixel value is reported for the collision flag; indexing out of the
32x64 grid panics. -/
def drawPix (scr : Nat → Nat → Bool) (wy wx : Nat) :
    Option ((Nat → Nat → Bool) × Bool) :=
  if wy < 32 then
    if wx < 64 then some (updS scr wy wx (!(scr wy wx)), scr wy wx)
    else none
  else none

/-- Inner draw loop over the 8 sprite columns of row `dy`, at wrapped row
`wy`.  The sprite byte `mem[i + dy]` is read (and can panic) before the
bit test, exactly as in the source. -/
def drawRow (s : Chip8) (xpos wy dy : Nat) (acc : (Nat → Nat → Bool) × Bool) :
    Option ((Nat → Nat → Bool) × Bool) :=
  (List.range 8).foldlM (fun acc2 dx =>
    match memRead s (s.i + dy) with
    | none => none
    | some b =>
      if b &&& (128 >>> dx) ≠ 0 then
        match drawPix acc2.1 wy
            (if dx + xpos ≥ 64 then dx + xpos - 64 else dx + xpos) with
        | none => none
        | some sp => some (sp.1, acc2.2 || sp.2)
      else some acc2) acc

/-- The `0xDxyn` draw instruction: rows `ypos..ypos+n-1`, single-pass
wrap `sy - 32` when `sy ≥ 32` (resp. `sx - 64`), collision flag into VF,
then `pc += 2`. -/
def drawSprite (s : Chip8) (x y n : Nat) : Option Chip8 :=
  match (List.range n).foldlM (fun acc dy =>
      drawRow s (readV s x)
        (if dy + readV s y ≥ 32 then dy + readV s y - 32 else dy + readV s y)
        dy acc)
      (s.screen, false) with
  | none => none
  | some res =>
    some { setV s 15 (if res.2 then 1 else 0) with
            screen := res.1, pc := s.pc + 2 }

/-- The `0xFx55` bulk store: `for o in 0..x { mem[i + o] = v[o] }`
(exclusive upper bound, as written in the source). -/
def bulkStoreMem (s : Chip8) (x : Nat) : Option (Nat → Nat) :=
  (List.range x).foldlM (fun m o =>
    if s.i + o < 4096 then some (upd m (s.i + o) (readV s o)) else none) s.mem

/-- The `0xFx65` bulk load: `for o in 0..x { v[o] = mem[i + o] }`
(exclusive upper bound, as written in the source). -/
def bulkLoadV (s : Chip8) (x : Nat) : Option (Nat → Nat) :=
  (List.range x).foldlM (fun vv o =>
    if s.i + o < 4096 then some (upd vv o (s.mem (s.i + o) % 256)) else none) s.v

/-- Execution of one decoded instruction word: the `match op & 0xF000`
of `Chip8::step`, arm for arm.  `rand` feeds `0xCxnn`, `key` feeds the
key index `wait_for_key` returns for `0xFx0A`.  A `panic!` arm is
`none`. -/
def execOp (rand key : Nat) (s : Chip8) (op : Nat) : Option Chip8 :=
  match op / 4096 with
  | 0 =>
    if opNN op = 0xE0 then
      some { s with screen := fun _ _ => false, pc := s.pc + 2 }
    else if opNN op = 0xEE then
      match s.stack with
      | [] => none
      | a :: rest => some { s with pc := a, stack := rest }
    else none
  | 1 => some { s with pc := opNNN op }
  | 2 => some { s with stack := (s.pc + 2) :: s.stack, pc := opNNN op }
  | 3 =>
    some { s with pc := s.pc + (if readV s (opX op) = opNN op then 4 else 2) }
  | 4 =>
    some { s with pc := s.pc + (if readV s (opX op) ≠ opNN op then 4 else 2) }
  | 5 =>
    some { s with
            pc := s.pc + (if readV s (opX op) = readV s (opY op) then 4 else 2) }
  | 6 => some { setV s (opX op) (opNN op) with pc := s.pc + 2 }
  | 7 =>
    some { setV s (opX op) (readV s (opX op) + opNN op) with pc := s.pc + 2 }
  | 8 =>
    match opN op with
    | 0 => some { setV s (opX op) (readV s (opY op)) with pc := s.pc + 2 }
    | 1 =>
      some { setV s (opX op) (readV s (opX op) ||| readV s (opY op)) with
              pc := s.pc + 2 }
    | 2 =>
      some { setV s (opX op) (readV s (opX op) &&& readV s (opY op)) with
              pc := s.pc + 2 }
    | 3 =>
      some { setV s (opX op) (readV s (opX op) ^^^ readV s (opY op)) with
              pc := s.pc + 2 }
    | 4 =>
      some { setV
              (setV s 15
                (if readV s (opX op) + readV s (opY op) > 255 then 1 else 0))
              (opX op) (readV s (opX op) + readV s (opY op)) with
              pc := s.pc + 2 }
    | 5 =>
      some { setV
              (setV s 15 (if readV s (opY op) ≤ readV s (opX op) then 1 else 0))
              (opX op) (readV s (opX op) + 256 - readV s (opY op)) with
              pc := s.pc + 2 }
    | 6 =>
      some { setV (setV s 15 (readV s (opX op) % 2)) (opX op)
              (readV (setV s 15 (readV s (opX op) % 2)) (opX op) / 2) with
              pc := s.pc + 2 }
    | 7 =>
      some { setV
              (setV s 15 (if readV s (opX op) ≤ readV s (opY op) then 1 else 0))
              (opX op) (readV s (opY op) + 256 - readV s (opX op)) with
              pc := s.pc + 2 }
    | 14 =>
      some { setV (setV s 15 (readV s (opX op) / 128)) (opX op)
              (readV (setV s 15 (readV s (opX op) / 128)) (opX op) * 2) with
              pc := s.pc + 2 }
    | _ => none
  | 9 =>
    some { s with
            pc := s.pc +
              (if readV s (opX op) ≠ readV s (opY op) then 4 else 2) + 2 }
  | 10 => some { s with i := opNNN op, pc := s.pc + 2 }
  | 11 => some { s with pc := readV s 0 + opNNN op + 2 }
  | 12 =>
    some { setV s (opX op) ((rand % 256) &&& opNN op) with pc := s.pc + 2 }
  | 13 => drawSprite s (opX op) (opY op) (opN op)
  | 14 =>
    if opNN op = 0x9E then
      if readV s (opX op) < 16 then
        some { s with
                pc := s.pc +
                  (if s.keys_pressed (readV s (opX op)) then 4 else 2) }
      else none
    else if opNN op = 0xA1 then
      if readV s (opX op) < 16 then
        some { s with
                pc := s.pc +
                  (if s.keys_pressed (readV s (opX op)) then 2 else 4) }
      else none
    else none
  | 15 =>
    if opNN op = 0x07 then
      some { setV s (opX op) (s.delay_timer % 256) with pc := s.pc + 2 }
    else if opNN op = 0x0A then
      some { setV { s with keys_pressed := updK s.keys_pressed (key % 16) true }
              (opX op) (key % 16) with pc := s.pc + 2 }
    else if opNN op = 0x15 then
      some { s with delay_timer := readV s (opX op), pc := s.pc + 2 }
    else if opNN op = 0x18 then
      some { s with sound_timer := readV s (opX op), pc := s.pc + 2 }
    else if opNN op = 0x1E then
      some { setV { s with i := (s.i + readV s (opX op)) % 65536 } 15
              (if (s.i + readV s (opX op)) % 65536 > 0xFFF then 1 else 0) with
              pc := s.pc + 2 }
    else if opNN op = 0x29 then
      some { s with i := 5 * readV s (opX op), pc := s.pc + 2 }
    else if opNN op = 0x33 then
      if s.i + 2 < 4096 then
        some { s with
                mem := upd (upd (upd s.mem
                    s.i (readV s (opX op) / 100))
                    (s.i + 1) (readV s (opX op) % 100 / 10))
                    (s.i + 2) (readV s (opX op) % 10),
                pc := s.pc + 2 }
      else none
    else if opNN op = 0x55 then
      match bulkStoreMem s (opX op) with
      | none => none
      | some m => some { s with mem := m, pc := s.pc + 2 }
    else if opNN op = 0x65 then
      match bulkLoadV s (opX op) with
      | none => none
      | some vv => some { s with v := vv, pc := s.pc + 2 }
    else none
  | _ => none

/-- One call of `Chip8::step`: fetch, then decode/execute. -/
def step (rand key : Nat) (s : Chip8) : Option Chip8 :=
  match fetchOp s with
  | none => none
  | some op => execOp rand key s op

/-- A fetched instruction word is 16 bits wide. -/
theorem fetchOp_lt (s : Chip8) (op : Nat) (h : fetchOp s = some op) :
    op < 65536 := by
  unfold fetchOp memRead at h
  by_cases h1 : s.pc < 4096
  · by_cases h2 : s.pc + 1 < 4096
    · simp only [if_pos h1, if_pos h2] at h
      have h3 := Option.some.inj h
      omega
    · simp [if_pos h1, if_neg h2] at h
  · simp [if_neg h1] at h

/-- When the fetch succeeds, a step is exactly the execution of the
fetched word. -/
theorem step_eq_exec (rand key : Nat) (s : Chip8) (op : Nat)
    (hf : fetchOp s = some op) : step rand key s = execOp rand key s op := by
  unfold step
  rw [hf]

/-- A successful draw instruction advances the program counter by 2. -/
theorem drawSprite_pc (s : Chip8) (x y n : Nat) (t : Chip8)
    (h : drawSprite s x y n = some t) : t.pc = s.pc + 2 := by
  unfold drawSprite at h
  split at h
  · exact Option.noConfusion h
  · obtain rfl := Option.some.inj h
    rfl

/-- Claim C1: the claim says `0xBnnn` leaves `PC = V0 + nnn` with no
further increment.  The code executes `pc = v[0] + nnn; pc += 2`: with
`V0 = 4` and instruction `0xB300` at `0x200` the final program counter is
`0x306`, not the claimed `0x304`. -/
theorem c1_bnnn_adds_two :
    (step 0 0 { load [0xB3, 0x00] with v := upd (fun _ => 0) 0 4 }).map
        Chip8.pc = some 0x306 ∧ (0x306 : Nat) ≠ 4 + 0x300 := by
  exact ⟨by rfl, by decide⟩

/-- Claim C2: the claim says the skip instructions advance PC by 4 when
the condition holds and by 2 otherwise.  For `0x9xy0` the code has a
stray extra `pc += 2`: with `V0 = V1 = 0` (condition false) instruction
`0x9010` advances PC by 4 instead of 2, and with `V0 = 1 ≠ V1 = 0`
(condition true) it advances PC by 6 instead of 4. -/
theorem c2_9xy0_extra_increment :
    (step 0 0 (load [0x90, 0x10])).map Chip8.pc = some 0x204 ∧
    (step 0 0 { load [0x90, 0x10] with v := upd (fun _ => 0) 0 1 }).map
        Chip8.pc = some 0x206 := by
  exact ⟨by rfl, by rfl⟩

/-- Claim C3: the claim says `0xFx55` stores `V0..Vx` inclusive, in
particular `Vx` at address `I + x`.  The code loops `for o in 0..x`
(exclusive): with `x = 1`, `V1 = 0xAB`, `I = 0x300`, memory at
`0x301 = I + x` stays 0 instead of receiving `0xAB`; with `x = 0`,
`V0 = 0xAB`, nothing at all is stored at `I`. -/
theorem c3_fx55_excludes_vx :
    (step 0 0 { load [0xF1, 0x55] with
        v := upd (fun _ => 0) 1 0xAB,
        i := 0x300 }).map (fun t => t.mem 0x301) = some 0 ∧
    (step 0 0 { load [0xF0, 0x55] with
        v := upd (fun _ => 0) 0 0xAB,
        i := 0x300 }).map (fun t => t.mem 0x300) = some 0 ∧
    (0 : Nat) ≠ 0xAB := by
  exact ⟨by rfl, by rfl, by decide⟩

/-- Claim C4: the claim says every coordinate touched by `0xDxyn` wraps
modulo 64/32, so the draw completes without out-of-range framebuffer
access.  The code wraps by subtracting 32/64 at most once: with
`Vy = 64`, `Vx = 0`, `n = 1` and sprite byte `mem[0] = 0xF0 ≠ 0`, the
wrapped row index is `64 - 32 = 32`, out of the 32-row screen, and the
step panics (`none`) instead of drawing at row `64 mod 32 = 0`. -/
theorem c4_draw_out_of_range :
    step 0 0 { load [0xD0, 0x11] with v := upd (fun _ => 0) 1 64 } = none ∧
    (64 : Nat) % 32 < 32 := by
  exact ⟨by rfl, by decide⟩

/-- Claim C10: after load, the glyph sprite for digit 0xB (addresses
0x37-0x3B) is byte-for-byte identical to the glyph for digit 0xC
(addresses 0x3C-0x40): both are F0 80 80 80 F0, for every loaded
program. -/
theorem c10_glyph_b_equals_c (prog : List Nat) :
    (loadMem prog 0x37 = 0xF0 ∧ loadMem prog 0x38 = 0x80 ∧
     loadMem prog 0x39 = 0x80 ∧ loadMem prog 0x3A = 0x80 ∧
     loadMem prog 0x3B = 0xF0) ∧
    (loadMem prog 0x3C = loadMem prog 0x37 ∧
     loadMem prog 0x3D = loadMem prog 0x38 ∧
     loadMem prog 0x3E = loadMem prog 0x39 ∧
     loadMem prog 0x3F = loadMem prog 0x3A ∧
     loadMem prog 0x40 = loadMem prog 0x3B) := by
  norm_num [loadMem, CHARACTER_SPRITES]

/-- Claim C5 fails as stated: executing `0x1201` from the loaded initial
state (PC = 0x200) leaves the program counter at `0x201`, which is odd,
so the claimed evenness invariant does not hold in every reachable
state. -/
theorem c5_counterexample :
    (step 0 0 (load [0x12, 0x01])).map Chip8.pc = some 0x201 ∧
    (0x201 : Nat) % 2 = 1 := by
  exact ⟨by rfl, by decide⟩

/-- Claim C6 fails as stated for `x = 0xF`: executing `0x8F04` with
`VF = 200`, `V0 = 200` gives a sum of `400 > 255`, yet the final `VF`
is `144` (the low 8 bits of the sum, which overwrite the carry flag),
not 1. -/
theorem c6_counterexample :
    (step 0 0 { load [0x8F, 0x04] with
        v := upd (upd (fun _ => 0) 0 200) 15 200 }).map
      (fun t => t.v 15) = some 144 ∧
    200 + 200 > 255 ∧ (144 : Nat) ≠ 1 := by
  exact ⟨by rfl, by decide, by decide⟩

/-- Claim C7 fails as stated for `x = 0xF`: executing `0x7F05` with
`VF = 0` leaves `VF = 5`, so `0x7xnn` does not leave `VF` unchanged
when `x = 0xF`. -/
theorem c7_counterexample :
    (step 0 0 (load [0x7F, 0x05])).map (fun t => t.v 15) = some 5 ∧
    (5 : Nat) ≠ 0 := by
  exact ⟨by rfl, by decide⟩

/-- Claim C9 fails as stated: `0x01E0` lies in the `0x0nnn` group and
differs from `0x00E0` and `0x00EE`, so the claim places it among the
fatal opcodes, yet the code dispatches on the low byte alone and
executes it as clear-screen, advancing PC to `0x202` instead of
failing. -/
theorem c9_counterexample :
    (step 0 0 (load [0x01, 0xE0])).map Chip8.pc = some 0x202 ∧
    (0x01E0 : Nat) / 4096 = 0 ∧ (0x01E0 : Nat) ≠ 0x00E0 ∧
    (0x01E0 : Nat) ≠ 0x00EE := by
  exact ⟨by rfl, by decide, by decide, by decide⟩

/-- Claim C8: a call `0x2nnn` executed at program counter `p` pushes
`p + 2` and jumps to `nnn`; any later `0x00EE` return executed with that
frame on top of the stack sets the program counter to exactly `p + 2`,
the instruction after the call, and pops the frame. -/
theorem c8_call_return (rand key rand2 key2 : Nat) (s t : Chip8)
    (op opr : Nat) (rest : List Nat)
    (hf : fetchOp s = some op) (hg : op / 4096 = 2)
    (hfr : fetchOp t = some opr) (hgr : opr / 4096 = 0)
    (hee : opr % 256 = 0xEE)
    (hst : t.stack = (s.pc + 2) :: rest) :
    (step rand key s).map (fun u => (u.pc, u.stack)) =
      some (opNNN op, (s.pc + 2) :: s.stack) ∧
    (step rand2 key2 t).map (fun u => (u.pc, u.stack)) =
      some (s.pc + 2, rest) := by
  constructor
  · rw [step_eq_exec rand key s op hf]
    unfold execOp
    split <;> first | rfl | omega | simp_all
  · rw [step_eq_exec rand2 key2 t opr hfr]
    unfold execOp
    split
    case h_1 =>
      have hne : ¬ opNN opr = 0xE0 := by unfold opNN; omega
      have heq2 : opNN opr = 0xEE := by unfold opNN; omega
      rw [if_neg hne, if_pos heq2, hst]
      rfl
    all_goals simp_all

/-- A state about to execute the call `0x2300` at `PC = 0x200`. -/
def c8s : Chip8 := load [0x23, 0x00]

/-- A state about to execute `0x00EE` at `0x300` with frame `0x202` on
top of the stack. -/
def c8t : Chip8 :=
  { load [] with
    pc := 0x300,
    stack := [0x202],
    mem := upd (upd (fun _ => 0) 0x300 0) 0x301 0xEE }

/-- Witness for claim C8 at a concrete call/return pair. -/
theorem c8_call_return_witness :
    (step 0 0 c8s).map (fun u => (u.pc, u.stack)) =
      some (opNNN 0x2300, (c8s.pc + 2) :: c8s.stack) ∧
    (step 0 0 c8t).map (fun u => (u.pc, u.stack)) =
      some (c8s.pc + 2, []) :=
  c8_call_return 0 0 0 0 c8s c8t 0x2300 0x00EE []
    (by rfl) (by decide) (by rfl) (by decide) (by decide) (by rfl)

/-- Claim C7 (amended): `0x7xnn` sets `Vx` to `(Vx + nn) mod 256`, and
for every register index `x ≠ 0xF` it leaves `VF` unchanged; when
`x = 0xF` the destination register is `VF` itself, so `VF` receives the
wrapped sum. -/
theorem c7_amended (rand key : Nat) (s : Chip8) (op : Nat)
    (hf : fetchOp s = some op) (hg : op / 4096 = 7) :
    (step rand key s).map (fun t => t.v (opX op)) =
      some ((readV s (opX op) + opNN op) % 256) ∧
    (opX op ≠ 15 →
      (step rand key s).map (fun t => t.v 15) = some (s.v 15)) := by
  have hexec := step_eq_exec rand key s op hf
  constructor
  · rw [hexec]
    unfold execOp
    split
    case h_8 => simp [setV, upd]
    all_goals simp_all
  · intro hx
    rw [hexec]
    unfold execOp
    split
    case h_8 => simp [setV, upd, Ne.symm hx]
    all_goals simp_all

/-- Witness state for claim C7: `0x7005` at `0x200`, registers zero. -/
def c7s : Chip8 := load [0x70, 0x05]

/-- Witness for claim C7 at the instruction `0x7005`. -/
theorem c7_amended_witness :
    (step 0 0 c7s).map (fun t => t.v (opX 0x7005)) =
      some ((readV c7s (opX 0x7005) + opNN 0x7005) % 256) ∧
    (opX 0x7005 ≠ 15 →
      (step 0 0 c7s).map (fun t => t.v 15) = some (c7s.v 15)) :=
  c7_amended 0 0 c7s 0x7005 (by rfl) (by decide)

/-- Claim C6 (amended): for every `x ≠ 0xF`, `0x8xy4` sets `VF` to 1
exactly when `Vx + Vy > 255` and sets `Vx` to the low 8 bits of the
sum; when `x = 0xF` the result write overwrites the carry flag, so `VF`
ends holding the low 8 bits of the sum instead. -/
theorem c6_amended (rand key : Nat) (s : Chip8) (op : Nat)
    (hf : fetchOp s = some op) (hg : op / 4096 = 8) (hn : opN op = 4)
    (hx : opX op ≠ 15) :
    (step rand key s).map (fun t => (t.v (opX op), t.v 15)) =
      some ((readV s (opX op) + readV s (opY op)) % 256,
        if readV s (opX op) + readV s (opY op) > 255 then 1 else 0) := by
  rw [step_eq_exec rand key s op hf]
  unfold execOp
  split
  case h_9 =>
    split
    case h_5 =>
      simp [setV, upd, Ne.symm hx]
      split <;> omega
    all_goals simp_all
  all_goals simp_all

/-- Witness state for claim C6: `0x8014` at `0x200`, `V0 = 1`,
`V1 = 2`. -/
def c6s : Chip8 :=
  { load [0x80, 0x14] with v := upd (upd (fun _ => 0) 0 1) 1 2 }

/-- Witness for claim C6 at the instruction `0x8014`. -/
theorem c6_amended_witness :
    (step 0 0 c6s).map (fun t => (t.v (opX 0x8014), t.v 15)) =
      some ((readV c6s (opX 0x8014) + readV c6s (opY 0x8014)) % 256,
        if readV c6s (opX 0x8014) + readV c6s (opY 0x8014) > 255
        then 1 else 0) :=
  c6_amended 0 0 c6s 0x8014 (by rfl) (by decide) (by decide) (by decide)

/-- The instruction words on which the decoder of `Chip8::step` falls
through to a fatal arm: the `0x0nnn` group whose low byte is neither
`0xE0` nor `0xEE`, the `0x8xyn` group with a low nibble that is no ALU
operation, the `0xExnn` group with a low byte other than `0x9E`/`0xA1`,
and the `0xFxnn` group with an unrecognised low byte. -/
def unsupported (op : Nat) : Bool :=
  (op / 4096 == 0 && !(op % 256 == 0xE0) && !(op % 256 == 0xEE)) ||
  (op / 4096 == 8 && !(op % 16 == 0) && !(op % 16 == 1) && !(op % 16 == 2) &&
    !(op % 16 == 3) && !(op % 16 == 4) && !(op % 16 == 5) && !(op % 16 == 6) &&
    !(op % 16 == 7) && !(op % 16 == 14)) ||
  (op / 4096 == 14 && !(op % 256 == 0x9E) && !(op % 256 == 0xA1)) ||
  (op / 4096 == 15 && !(op % 256 == 0x07) && !(op % 256 == 0x0A) &&
    !(op % 256 == 0x15) && !(op % 256 == 0x18) && !(op % 256 == 0x1E) &&
    !(op % 256 == 0x29) && !(op % 256 == 0x33) && !(op % 256 == 0x55) &&
    !(op % 256 == 0x65))

/-- Claim C9 (amended): for every instruction word on which the decoder
falls through to a fatal arm — the `0x0nnn` group whose low byte is
neither `0xE0` nor `0xEE`, and every other unmatched word — execution
fails fatally (`none`) and no machine state is produced, hence nothing
is mutated by that instruction. -/
theorem c9_amended (rand key : Nat) (s : Chip8) (op : Nat)
    (hf : fetchOp s = some op) (hu : unsupported op = true) :
    step rand key s = none := by
  rw [step_eq_exec rand key s op hf]
  simp only [unsupported, Bool.or_eq_true, Bool.and_eq_true,
    Bool.not_eq_true', beq_iff_eq, beq_eq_false_iff_ne, ne_eq] at hu
  unfold execOp
  simp only [opNNN, opNN, opN]
  repeat' (first | rfl | omega | split)

/-- Witness for claim C9: the word `0x0000` (a legacy `0x0nnn` call) is
unsupported and the step fails fatally. -/
theorem c9_amended_witness :
    unsupported 0x0000 = true ∧ step 0 0 (load []) = none :=
  ⟨by decide, c9_amended 0 0 (load []) 0x0000 (by rfl) (by decide)⟩

set_option maxHeartbeats 1000000 in
/-- Every successfully executed instruction outside the direct control
transfers advances the program counter by exactly 2, 4 or 6. -/
theorem execOp_pc_incr (rand key : Nat) (s : Chip8) (op : Nat) (t : Chip8)
    (ht : execOp rand key s op = some t)
    (h1 : op / 4096 ≠ 1) (h2 : op / 4096 ≠ 2) (hb : op / 4096 ≠ 11)
    (hee : ¬(op / 4096 = 0 ∧ op % 256 = 0xEE)) :
    t.pc = s.pc + 2 ∨ t.pc = s.pc + 4 ∨ t.pc = s.pc + 6 := by
  unfold execOp at ht
  simp only [opNNN, opNN, opN] at ht
  split at ht
  case h_14 => exact Or.inl (drawSprite_pc _ _ _ _ _ ht)
  case h_17 => exact Option.noConfusion ht
  all_goals repeat' (split at ht)
  all_goals
    first
      | omega
      | exact Option.noConfusion ht
      | (obtain rfl := Option.some.inj ht
         first
           | (left; rfl)
           | (right; left; rfl)
           | (right; right; rfl))

/-- Claim C5 (amended): the interpreter does not enforce the claimed
invariant — direct control transfers (`0x1nnn`, `0x2nnn`, `0xBnnn`,
`0x00EE`) set PC to values that may be odd or out of range (see the
counterexample above).  What holds: every other instruction that
executes successfully advances PC by exactly 2, 4 or 6, an even amount,
so PC evenness is preserved by all non-control-transfer instructions
(and the initial PC `0x200` is even and in range). -/
theorem c5_amended (rand key : Nat) (s : Chip8) (op : Nat)
    (hf : fetchOp s = some op)
    (h1 : op / 4096 ≠ 1) (h2 : op / 4096 ≠ 2) (hb : op / 4096 ≠ 11)
    (hee : ¬(op / 4096 = 0 ∧ op % 256 = 0xEE)) :
    step rand key s = none ∨
    (step rand key s).map Chip8.pc = some (s.pc + 2) ∨
    (step rand key s).map Chip8.pc = some (s.pc + 4) ∨
    (step rand key s).map Chip8.pc = some (s.pc + 6) := by
  rcases hstep : step rand key s with _ | t
  · exact Or.inl rfl
  · right
    have ht : execOp rand key s op = some t := by
      rw [← step_eq_exec rand key s op hf]
      exact hstep
    have hpc := execOp_pc_incr rand key s op t ht h1 h2 hb hee
    simpa using hpc

/-- Witness state for claim C5: `0x6005` (a plain load) at `0x200`. -/
def c5s : Chip8 := load [0x60, 0x05]

/-- Witness for claim C5 at the instruction `0x6005`, which advances PC
from `0x200` to `0x202`. -/
theorem c5_amended_witness :
    (step 0 0 c5s = none ∨
      (step 0 0 c5s).map Chip8.pc = some (c5s.pc + 2) ∨
      (step 0 0 c5s).map Chip8.pc = some (c5s.pc + 4) ∨
      (step 0 0 c5s).map Chip8.pc = some (c5s.pc + 6)) ∧
    (step 0 0 c5s).map Chip8.pc = some 0x202 :=
  ⟨c5_amended 0 0 c5s 0x6005 (by rfl) (by decide) (by decide) (by decide)
    (by decide), by rfl⟩

end StackChip8
